import Mathlib

/-
Verification of the LC3 JNI shim (app/src/main/cpp/lc3_jni.cpp).

The shim forwards calls to the external LC3 transform engine
(lc3_frame_samples, lc3_encoder_size, lc3_setup_encoder, lc3_encode, ...),
marshals Java byte arrays across the JNI boundary, and manages the
encoder/decoder allocations with malloc/free.

Embedding choices:
* The transform engine is an opaque collaborator; it is embedded as a record
  of pure functions (`Engine`).  The shim functions are parameterised over it,
  so theorems about the shim hold for every engine behaviour.
* NULL pointers / null Java references are `none` (for buffers) or the
  integer 0 (for handles), as in the C code.
* JNI `GetByteArrayElements` may fail (return NULL); each call site gets a
  Boolean oracle (`getInOk`, `getOutOk`).  `ReleaseByteArrayElements` with
  `JNI_ABORT` discards the native copy (the Java array keeps its old
  contents); mode 0 commits the native copy back to the Java array.
* `malloc` may fail; its outcome is the `Option Nat` argument of the setup
  functions (the address of the fresh block, or `none`).  Allocator activity
  is recorded as an explicit event trace so that leak-freedom is a statement
  about the trace.
-/

/-- Heap events emitted by the shim: acquisition of a block from `malloc`
and release of a block via `free`. -/
inductive Ev where
  | alloc : Nat → Ev
  | free : Nat → Ev
deriving DecidableEq, Repr

/-- Blocks still held after a trace of allocator events: each `alloc` adds the
block, each `free` removes one occurrence of it. -/
def heldAfter (evs : List Ev) : List Nat :=
  evs.foldl
    (fun held e =>
      match e with
      | Ev.alloc a => held ++ [a]
      | Ev.free a => held.erase a)
    []

/-- Interface of the external LC3 transform engine, as used by the shim.
Pointers returned by the engine are naturals with 0 standing for NULL.
`encode_write` / `decode_write` give the contents of the output buffer after
the engine ran, as a function of exactly the arguments the shim passes to
`lc3_encode` / `lc3_decode` (handle, input data, byte count) and of the
buffer's previous contents. -/
structure Engine where
  frame_samples : Int → Int → Int
  encoder_size : Int → Int → Nat
  decoder_size : Int → Int → Nat
  setup_encoder : Int → Int → Nat → Nat
  setup_decoder : Int → Int → Nat → Nat
  encode_status : Int → List Int → Int → Int
  encode_write : Int → List Int → Int → List Int → List Int
  decode_status : Int → Option (List Int) → Int → Int
  decode_write : Int → Option (List Int) → Int → List Int → List Int

/-- Embeds `Java_com_lh_audiotest03_LC3Codec_getFrameSamples`: a direct
forward to `lc3_frame_samples`. -/
def getFrameSamples (eng : Engine) (dt_us sr_hz : Int) : Int :=
  eng.frame_samples dt_us sr_hz

/-- Embeds `Java_com_lh_audiotest03_LC3Codec_getEncoderSize`: a direct
forward to `lc3_encoder_size` (an unsigned quantity, returned as jint). -/
def getEncoderSize (eng : Engine) (dt_us sr_hz : Int) : Int :=
  Int.ofNat (eng.encoder_size dt_us sr_hz)

/-- Embeds `Java_com_lh_audiotest03_LC3Codec_getDecoderSize`: a direct
forward to `lc3_decoder_size`. -/
def getDecoderSize (eng : Engine) (dt_us sr_hz : Int) : Int :=
  Int.ofNat (eng.decoder_size dt_us sr_hz)

/-- Embeds `Java_com_lh_audiotest03_LC3Codec_setupEncoder`.  Returns the
handle (0 = null) and the trace of allocator events the call performed.
`mallocRes` is the allocator's answer for this call: `none` when `malloc`
returns NULL, otherwise the address of the fresh block. -/
def setupEncoder (eng : Engine) (dt_us sr_hz : Int) (mallocRes : Option Nat) :
    Int × List Ev :=
  let encodeSize := eng.encoder_size dt_us sr_hz
  if encodeSize = 0 then (0, [])
  else
    match mallocRes with
    | none => (0, [])
    | some encMem =>
      let encoder := eng.setup_encoder dt_us sr_hz encMem
      if encoder = 0 then (0, [Ev.alloc encMem, Ev.free encMem])
      else ((encoder : Int), [Ev.alloc encMem])

/-- Embeds `Java_com_lh_audiotest03_LC3Codec_setupDecoder`, symmetric to
`setupEncoder`. -/
def setupDecoder (eng : Engine) (dt_us sr_hz : Int) (mallocRes : Option Nat) :
    Int × List Ev :=
  let decodeSize := eng.decoder_size dt_us sr_hz
  if decodeSize = 0 then (0, [])
  else
    match mallocRes with
    | none => (0, [])
    | some decMem =>
      let decoder := eng.setup_decoder dt_us sr_hz decMem
      if decoder = 0 then (0, [Ev.alloc decMem, Ev.free decMem])
      else ((decoder : Int), [Ev.alloc decMem])

/-- Outcome of one `encode` call: the jint status returned to Java, the
arguments handed to `lc3_encode` (`none` when the engine was never invoked:
input data and output byte count), and the contents of the caller's output
array after the call (unchanged on `JNI_ABORT` paths, the engine's output
on the mode-0 commit path). -/
structure EncodeResult where
  status : Int
  engineIn : Option (List Int × Int)
  outData : Option (List Int)
deriving DecidableEq, Repr

/-- Embeds `Java_com_lh_audiotest03_LC3Codec_encode`, branch for branch:
null-argument check, `GetByteArrayElements` for both arrays, the
`input_size <= 0` check, the `output_byte_count <= 0` check, then the call
to `lc3_encode` and the commit of the output array. -/
def encode (eng : Engine) (encoder_handle : Int) (input_buffer : Option (List Int))
    (input_size output_byte_count : Int) (output_buffer : Option (List Int))
    (getInOk getOutOk : Bool) : EncodeResult :=
  if encoder_handle = 0 ∨ input_buffer = none ∨ output_buffer = none then
    ⟨-1, none, output_buffer⟩
  else if ¬ getInOk ∨ ¬ getOutOk then
    ⟨-1, none, output_buffer⟩
  else if input_size ≤ 0 then
    ⟨-1, none, output_buffer⟩
  else if output_byte_count ≤ 0 then
    ⟨-1, none, output_buffer⟩
  else
    let input_data := input_buffer.getD []
    let output_data := output_buffer.getD []
    let result := eng.encode_status encoder_handle input_data output_byte_count
    ⟨result, some (input_data, output_byte_count),
      some (eng.encode_write encoder_handle input_data output_byte_count output_data)⟩

/-- Indices of the caller's input array that the `encode` shim itself
dereferences: once every validation has passed, the debug log at
lc3_jni.cpp:131-135 unconditionally reads `input_data[0] .. input_data[7]`
(reads performed inside the opaque engine are not counted here). -/
def encodeInputReads (encoder_handle : Int) (input_buffer : Option (List Int))
    (input_size output_byte_count : Int) (output_buffer : Option (List Int))
    (getInOk getOutOk : Bool) : List Nat :=
  if encoder_handle = 0 ∨ input_buffer = none ∨ output_buffer = none then []
  else if ¬ getInOk ∨ ¬ getOutOk then []
  else if input_size ≤ 0 then []
  else if output_byte_count ≤ 0 then []
  else [0, 1, 2, 3, 4, 5, 6, 7]

/-- Outcome of one `decode` call: the jint status, the input forwarded to
`lc3_decode` (`none` in the outer option when the engine was never invoked;
`some none` when the engine was invoked with a NULL input, i.e. a
concealment request), and the contents of the caller's output array after
the call. -/
structure DecodeResult where
  status : Int
  engineIn : Option (Option (List Int))
  outData : Option (List Int)
deriving DecidableEq, Repr

/-- Embeds `Java_com_lh_audiotest03_LC3Codec_decode`, branch for branch:
null handle / null output check, `GetByteArrayElements` on the input array
only when one was passed (a NULL input array is forwarded as NULL to the
engine for packet-loss concealment), `GetByteArrayElements` on the output
array, then the call to `lc3_decode` and the commit of the output array.
The `output_size` parameter is accepted but, as in the source, never
consulted. -/
def decode (eng : Engine) (decoder_handle : Int) (input_buffer : Option (List Int))
    (input_size : Int) (output_buffer : Option (List Int)) (output_size : Int)
    (getInOk getOutOk : Bool) : DecodeResult :=
  if decoder_handle = 0 ∨ output_buffer = none then
    ⟨-1, none, output_buffer⟩
  else if input_buffer.isSome ∧ ¬ getInOk then
    ⟨-1, none, output_buffer⟩
  else if ¬ getOutOk then
    ⟨-1, none, output_buffer⟩
  else
    let input_data : Option (List Int) := input_buffer
    let output_data := output_buffer.getD []
    let result := eng.decode_status decoder_handle input_data input_size
    ⟨result, some input_data,
      some (eng.decode_write decoder_handle input_data input_size output_data)⟩

/-- Embeds `Java_com_lh_audiotest03_LC3Codec_releaseEncoder` over a heap of
live allocations: frees the block behind a non-null handle, does nothing on
the null handle. -/
def releaseEncoder (heap : Finset Int) (encoder_handle : Int) : Finset Int :=
  if encoder_handle ≠ 0 then heap.erase encoder_handle else heap

/-- Embeds `Java_com_lh_audiotest03_LC3Codec_releaseDecoder`, textually the
same routine as `releaseEncoder`. -/
def releaseDecoder (heap : Finset Int) (decoder_handle : Int) : Finset Int :=
  if decoder_handle ≠ 0 then heap.erase decoder_handle else heap

/-- Modelled from the spec: the supported configuration set of the frame
geometry resolver.  The LC3 library sources (`lib/include/lc3.h` and its
implementation) are not part of src/; the spec fixes the domain as a fixed
enumerated set of frame durations (7.5 ms, 10 ms) times the fixed list of
supported sample rates. -/
def validConfigB (dt_us sr_hz : Int) : Bool :=
  (dt_us == 7500 || dt_us == 10000) &&
    (sr_hz == 8000 || sr_hz == 16000 || sr_hz == 24000 || sr_hz == 32000 ||
      sr_hz == 48000)

/-- Modelled from the spec: `lc3_frame_samples`, the geometry resolver's
samples-per-frame function, absent from src/.  Per the spec it is a pure
function, strictly positive on the supported set (duration·rate samples,
e.g. 10000 µs × 16000 Hz ↦ 160) and the sentinel 0 on every unsupported
pair. -/
def lc3_frame_samples (dt_us sr_hz : Int) : Int :=
  if validConfigB dt_us sr_hz then dt_us * sr_hz / 1000000 else 0

/-- Modelled from the spec: `lc3_encoder_size`, absent from src/.  The spec
fixes only its domain (0 on unsupported pairs, strictly positive on
supported ones); the concrete positive footprint formula is a
representative choice. -/
def lc3_encoder_size (dt_us sr_hz : Int) : Nat :=
  if validConfigB dt_us sr_hz then (lc3_frame_samples dt_us sr_hz).toNat * 2 + 64
  else 0

/-- Modelled from the spec: `lc3_decoder_size`, absent from src/, with the
same domain contract as `lc3_encoder_size`. -/
def lc3_decoder_size (dt_us sr_hz : Int) : Nat :=
  if validConfigB dt_us sr_hz then (lc3_frame_samples dt_us sr_hz).toNat * 4 + 128
  else 0

/-- Modelled from the spec: a transform engine satisfying the engine
contract the spec states — geometry as above, setup accepting every
supported configuration, decode answering 1 (concealment performed) on an
absent input and 0 (normal decode) otherwise, and a full frame of defined
samples written into the output buffer. -/
def specEngine : Engine where
  frame_samples := lc3_frame_samples
  encoder_size := lc3_encoder_size
  decoder_size := lc3_decoder_size
  setup_encoder := fun dt sr mem => if validConfigB dt sr then mem else 0
  setup_decoder := fun dt sr mem => if validConfigB dt sr then mem else 0
  encode_status := fun _ _ _ => 0
  encode_write := fun _ _ _ out => List.replicate out.length 0
  decode_status := fun _ inp _ => match inp with | none => 1 | some _ => 0
  decode_write := fun _ _ _ out => List.replicate out.length 0

/-- C10: `releaseEncoder` and `releaseDecoder` are the same function — the
source bodies are identical, neither distinguishes encoder handles from
decoder handles, so releasing a decoder handle through `releaseEncoder` (or
vice versa) has exactly the effect of the matching release function. -/
theorem releaseEncoder_eq_releaseDecoder : releaseEncoder = releaseDecoder := rfl

/-- C8: two `decode` calls identical except for the `output_size` argument
return the same status and write the same contents into the output buffer —
the implementation never consults `output_size`, so the spec's precondition
that the output buffer holds exactly samplesPerFrame samples is not checked
against it. -/
theorem decode_ignores_output_size (eng : Engine) (decoder_handle : Int)
    (input_buffer : Option (List Int)) (input_size : Int)
    (output_buffer : Option (List Int)) (osz osz' : Int) (getInOk getOutOk : Bool) :
    decode eng decoder_handle input_buffer input_size output_buffer osz
        getInOk getOutOk =
      decode eng decoder_handle input_buffer input_size output_buffer osz'
        getInOk getOutOk := rfl

/-- C6: for every handle value, `releaseEncoder` and `releaseDecoder` are an
idempotent no-op on the null handle 0 — any number of calls changes nothing —
and on a non-null handle they remove that handle's allocation from the heap
unconditionally (in particular for a session that was set up but never
used: the function does not depend on any usage history). -/
theorem release_null_noop_nonnull_reclaims (heap : Finset Int) (h : Int) :
    releaseEncoder heap 0 = heap ∧
    releaseDecoder heap 0 = heap ∧
    (∀ n : Nat, Nat.iterate (fun s => releaseEncoder s 0) n heap = heap) ∧
    (∀ n : Nat, Nat.iterate (fun s => releaseDecoder s 0) n heap = heap) ∧
    (h ≠ 0 →
      releaseEncoder heap h = heap.erase h ∧ h ∉ releaseEncoder heap h ∧
      releaseDecoder heap h = heap.erase h ∧ h ∉ releaseDecoder heap h) := by
  refine ⟨by simp [releaseEncoder], by simp [releaseDecoder], ?_, ?_, ?_⟩
  · intro n
    induction n with
    | zero => rfl
    | succ k ih => rw [Function.iterate_succ_apply', ih]; simp [releaseEncoder]
  · intro n
    induction n with
    | zero => rfl
    | succ k ih => rw [Function.iterate_succ_apply', ih]; simp [releaseDecoder]
  · intro hh
    refine ⟨by simp [releaseEncoder, hh], ?_, by simp [releaseDecoder, hh], ?_⟩
    · simp [releaseEncoder, hh]
    · simp [releaseDecoder, hh]

/-- C6 witness: concrete instance — releasing the null handle on the heap
{4096} changes nothing, and releasing the live handle 4096 removes it. -/
theorem release_null_noop_nonnull_reclaims_witness :
    releaseEncoder ({4096} : Finset Int) 0 = {4096} ∧
    (4096 : Int) ∉ releaseEncoder ({4096} : Finset Int) 4096 := by
  refine ⟨(release_null_noop_nonnull_reclaims ({4096} : Finset Int) 4096).1, ?_⟩
  exact ((release_null_noop_nonnull_reclaims ({4096} : Finset Int) 4096).2.2.2.2
    (by decide)).2.1

/-- C7: the claim asserts that every read `encode` performs on the input
buffer is at an index below the buffer's length; the code instead reads
`input_data[0] .. input_data[7]` unconditionally in its debug log once
validation passes.  At the concrete call below the input buffer holds a
single byte (length 1) yet index 7 is among the indices read, and 7 < 1
fails — the out-of-bounds read the spec's open question describes. -/
theorem encode_debug_read_out_of_bounds :
    7 ∈ encodeInputReads 1 (some [42]) 1 20 (some (List.replicate 20 0)) true true ∧
    (some ([42] : List Int)).getD [] = [42] ∧
    ([42] : List Int).length = 1 ∧
    ¬ (7 < 1) := by
  constructor
  · simp [encodeInputReads]
  · exact ⟨rfl, rfl, by decide⟩

/-- C2: `getFrameSamples`, `getEncoderSize` and `getDecoderSize` are (by
construction of the embedding) pure, side-effect-free functions of the
(frame duration, sample rate) pair; over the spec-modelled geometry every
supported pair yields a strictly positive value on every query, and every
unsupported pair yields 0. -/
theorem geometry_positive_on_valid_zero_on_invalid (dt_us sr_hz : Int) :
    (validConfigB dt_us sr_hz = true →
      0 < getFrameSamples specEngine dt_us sr_hz ∧
      0 < getEncoderSize specEngine dt_us sr_hz ∧
      0 < getDecoderSize specEngine dt_us sr_hz) ∧
    (validConfigB dt_us sr_hz = false →
      getFrameSamples specEngine dt_us sr_hz = 0 ∧
      getEncoderSize specEngine dt_us sr_hz = 0 ∧
      getDecoderSize specEngine dt_us sr_hz = 0) := by
  constructor
  · intro hv
    simp only [validConfigB, Bool.and_eq_true, Bool.or_eq_true, beq_iff_eq] at hv
    obtain ⟨h1 | h1, (((h2 | h2) | h2) | h2) | h2⟩ := hv <;>
      subst h1 <;> subst h2 <;>
      exact ⟨by decide, by decide, by decide⟩
  · intro hv
    refine ⟨?_, ?_, ?_⟩
    · simp [getFrameSamples, specEngine, lc3_frame_samples, hv]
    · simp [getEncoderSize, specEngine, lc3_encoder_size, hv]
    · simp [getDecoderSize, specEngine, lc3_decoder_size, hv]

/-- C2 witness: the supported pair (10000 µs, 16000 Hz) yields strictly
positive geometry, and the unsupported pair (1 µs, 1 Hz) yields 0
throughout. -/
theorem geometry_positive_on_valid_zero_on_invalid_witness :
    (0 < getFrameSamples specEngine 10000 16000 ∧
      0 < getEncoderSize specEngine 10000 16000 ∧
      0 < getDecoderSize specEngine 10000 16000) ∧
    (getFrameSamples specEngine 1 1 = 0 ∧
      getEncoderSize specEngine 1 1 = 0 ∧
      getDecoderSize specEngine 1 1 = 0) :=
  ⟨(geometry_positive_on_valid_zero_on_invalid 10000 16000).1 (by decide),
   (geometry_positive_on_valid_zero_on_invalid 1 1).2 (by decide)⟩

/-- C1: `setupEncoder` and `setupDecoder` fail atomically for every engine,
every (frame duration, sample rate) input and every allocator outcome: a
zero footprint returns handle 0 with an empty event trace whatever the
allocator would have answered (no allocation is attempted); a failed
allocation returns handle 0 with nothing acquired; whenever the returned
handle is 0 the net set of held blocks is empty (every failure branch freed
what it acquired); and a non-zero handle holds exactly one allocation. -/
theorem setup_fails_atomically (eng : Engine) (dt_us sr_hz : Int)
    (r : Option Nat) :
    (eng.encoder_size dt_us sr_hz = 0 →
      ∀ r', setupEncoder eng dt_us sr_hz r' = (0, [])) ∧
    (setupEncoder eng dt_us sr_hz none = (0, [])) ∧
    ((setupEncoder eng dt_us sr_hz r).1 = 0 →
      heldAfter (setupEncoder eng dt_us sr_hz r).2 = []) ∧
    ((setupEncoder eng dt_us sr_hz r).1 ≠ 0 →
      ∃ a, heldAfter (setupEncoder eng dt_us sr_hz r).2 = [a]) ∧
    (eng.decoder_size dt_us sr_hz = 0 →
      ∀ r', setupDecoder eng dt_us sr_hz r' = (0, [])) ∧
    (setupDecoder eng dt_us sr_hz none = (0, [])) ∧
    ((setupDecoder eng dt_us sr_hz r).1 = 0 →
      heldAfter (setupDecoder eng dt_us sr_hz r).2 = []) ∧
    ((setupDecoder eng dt_us sr_hz r).1 ≠ 0 →
      ∃ a, heldAfter (setupDecoder eng dt_us sr_hz r).2 = [a]) := by
  refine ⟨?_, ?_, ?_, ?_, ?_, ?_, ?_, ?_⟩
  · intro hz r'
    cases r' <;> simp [setupEncoder, hz]
  · simp [setupEncoder]
  · by_cases hz : eng.encoder_size dt_us sr_hz = 0
    · cases r <;> simp [setupEncoder, hz, heldAfter]
    · cases r with
      | none => simp [setupEncoder, hz, heldAfter]
      | some a =>
        by_cases he : eng.setup_encoder dt_us sr_hz a = 0 <;>
          simp [setupEncoder, hz, he, heldAfter]
  · by_cases hz : eng.encoder_size dt_us sr_hz = 0
    · cases r <;> simp [setupEncoder, hz, heldAfter]
    · cases r with
      | none => simp [setupEncoder, hz, heldAfter]
      | some a =>
        by_cases he : eng.setup_encoder dt_us sr_hz a = 0 <;>
          simp [setupEncoder, hz, he, heldAfter]
  · intro hz r'
    cases r' <;> simp [setupDecoder, hz]
  · simp [setupDecoder]
  · by_cases hz : eng.decoder_size dt_us sr_hz = 0
    · cases r <;> simp [setupDecoder, hz, heldAfter]
    · cases r with
      | none => simp [setupDecoder, hz, heldAfter]
      | some a =>
        by_cases he : eng.setup_decoder dt_us sr_hz a = 0 <;>
          simp [setupDecoder, hz, he, heldAfter]
  · by_cases hz : eng.decoder_size dt_us sr_hz = 0
    · cases r <;> simp [setupDecoder, hz, heldAfter]
    · cases r with
      | none => simp [setupDecoder, hz, heldAfter]
      | some a =>
        by_cases he : eng.setup_decoder dt_us sr_hz a = 0 <;>
          simp [setupDecoder, hz, he, heldAfter]

/-- C1 witness: for the spec-modelled engine, setup on the unsupported pair
(9999 µs, 16000 Hz) returns handle 0 with an empty trace whatever the
allocator answers, and a successful setup at (10000 µs, 16000 Hz) with the
block at address 4096 holds exactly one allocation. -/
theorem setup_fails_atomically_witness :
    setupEncoder specEngine 9999 16000 (some 4096) = (0, []) ∧
    (∃ a, heldAfter (setupEncoder specEngine 10000 16000 (some 4096)).2 = [a]) :=
  ⟨(setup_fails_atomically specEngine 9999 16000 (some 4096)).1 (by decide)
      (some 4096),
   (setup_fails_atomically specEngine 10000 16000 (some 4096)).2.2.2.1
      (by decide)⟩

/-- Helper: `encode` answers -1, invokes no engine and leaves the output
array untouched whenever any of its entry validations (or the JNI
marshalling) fails. -/
theorem encode_early_exit (eng : Engine) (h : Int) (inb : Option (List Int))
    (isz obc : Int) (outb : Option (List Int)) (gi go : Bool)
    (hbad : (h = 0 ∨ inb = none ∨ outb = none) ∨ (¬ gi ∨ ¬ go) ∨ isz ≤ 0 ∨
      obc ≤ 0) :
    encode eng h inb isz obc outb gi go = ⟨-1, none, outb⟩ := by
  unfold encode
  by_cases h1 : h = 0 ∨ inb = none ∨ outb = none
  · rw [if_pos h1]
  · rw [if_neg h1]
    by_cases h2 : ¬ gi ∨ ¬ go
    · rw [if_pos h2]
    · rw [if_neg h2]
      by_cases h3 : isz ≤ 0
      · rw [if_pos h3]
      · rw [if_neg h3, if_pos (show obc ≤ 0 by tauto)]

/-- Helper: `encode` on a call passing every entry validation performs
exactly one engine invocation on the validated arguments and commits the
engine's output. -/
theorem encode_engine_invoked (eng : Engine) (h : Int) (inb : Option (List Int))
    (isz obc : Int) (outb : Option (List Int)) (gi go : Bool)
    (hgood : ¬ (h = 0 ∨ inb = none ∨ outb = none) ∧ gi = true ∧ go = true ∧
      0 < isz ∧ 0 < obc) :
    encode eng h inb isz obc outb gi go =
      ⟨eng.encode_status h (inb.getD []) obc, some (inb.getD [], obc),
        some (eng.encode_write h (inb.getD []) obc (outb.getD []))⟩ := by
  obtain ⟨h1, hgi, hgo, hisz, hobc⟩ := hgood
  unfold encode
  rw [if_neg h1, if_neg (by simp [hgi, hgo]), if_neg (not_le.mpr hisz),
    if_neg (not_le.mpr hobc)]

/-- Helper: `decode` answers -1, invokes no engine and leaves the output
array untouched whenever its entry validation or the JNI marshalling
fails. -/
theorem decode_early_exit (eng : Engine) (h : Int) (inb : Option (List Int))
    (isz : Int) (outb : Option (List Int)) (osz : Int) (gi go : Bool)
    (hbad : (h = 0 ∨ outb = none) ∨ (inb.isSome ∧ ¬ gi) ∨ ¬ go) :
    decode eng h inb isz outb osz gi go = ⟨-1, none, outb⟩ := by
  unfold decode
  by_cases h1 : h = 0 ∨ outb = none
  · rw [if_pos h1]
  · rw [if_neg h1]
    by_cases h2 : inb.isSome ∧ ¬ gi
    · rw [if_pos h2]
    · rw [if_neg h2, if_pos (show ¬ (go = true) by tauto)]

/-- C3: for every engine, `encode` called with a null (0) handle, an absent
input buffer, an absent output buffer or a non-positive output capacity,
and `decode` called with a null handle or an absent output buffer, return a
negative status without ever invoking the transform engine. -/
theorem invalid_args_rejected_before_engine (eng : Engine) (h : Int)
    (inb : Option (List Int)) (isz obc : Int) (outb : Option (List Int))
    (osz : Int) (gi go : Bool) :
    (h = 0 ∨ inb = none ∨ outb = none ∨ obc ≤ 0 →
      (encode eng h inb isz obc outb gi go).status < 0 ∧
      (encode eng h inb isz obc outb gi go).engineIn = none) ∧
    (h = 0 ∨ outb = none →
      (decode eng h inb isz outb osz gi go).status < 0 ∧
      (decode eng h inb isz outb osz gi go).engineIn = none) := by
  constructor
  · intro hbad
    rw [encode_early_exit eng h inb isz obc outb gi go (by tauto)]
    exact ⟨show (-1 : Int) < 0 by decide, rfl⟩
  · intro hbad
    rw [decode_early_exit eng h inb isz outb osz gi go (by tauto)]
    exact ⟨show (-1 : Int) < 0 by decide, rfl⟩

/-- C3 witness: with a null handle, encode and decode on the spec-modelled
engine answer a negative status without invoking the engine. -/
theorem invalid_args_rejected_before_engine_witness :
    (encode specEngine 0 (some [1]) 160 40 (some [0]) true true).status < 0 ∧
    (encode specEngine 0 (some [1]) 160 40 (some [0]) true true).engineIn = none ∧
    (decode specEngine 0 (some [1]) 40 (some [0]) 160 true true).status < 0 ∧
    (decode specEngine 0 (some [1]) 40 (some [0]) 160 true true).engineIn = none := by
  have h := invalid_args_rejected_before_engine specEngine 0 (some [1]) 160 40
    (some [0]) 160 true true
  exact ⟨(h.1 (Or.inl rfl)).1, (h.1 (Or.inl rfl)).2,
    (h.2 (Or.inl rfl)).1, (h.2 (Or.inl rfl)).2⟩

/-- C4: for a live decoder handle (non-null) with the output array
marshalled, calling `decode` on the spec-modelled engine with an explicitly
absent input buffer is accepted: the absence (NULL) is forwarded to the
engine as the concealment request and the call returns status 1, which is
distinct from normal success 0 and from every failure (< 0). -/
theorem decode_absent_input_concealment (h isz osz : Int) (buf : List Int)
    (gi : Bool) (hh : h ≠ 0) :
    (decode specEngine h none isz (some buf) osz gi true).status = 1 ∧
    (decode specEngine h none isz (some buf) osz gi true).engineIn = some none ∧
    ((1 : Int) ≠ 0 ∧ ¬ ((1 : Int) < 0)) := by
  refine ⟨?_, ?_, by decide, by decide⟩
  · simp [decode, specEngine, hh]
  · simp [decode, hh]

/-- C4 witness: decoding with handle 1 and an absent input over a 160-sample
output frame yields status 1 with the engine invoked on the NULL input. -/
theorem decode_absent_input_concealment_witness :
    (decode specEngine 1 none 0 (some (List.replicate 160 0)) 160 true
        true).status = 1 ∧
    (decode specEngine 1 none 0 (some (List.replicate 160 0)) 160 true
        true).engineIn = some none := by
  have h := decode_absent_input_concealment 1 0 160 (List.replicate 160 0) true
    (by decide)
  exact ⟨h.1, h.2.1⟩

/-- C5: for every engine and every `encode` call whose arguments pass the
entry validation (live handle, both buffers present and marshalled,
positive input size and output capacity), the status returned to the caller
is exactly the status produced by the engine's `lc3_encode`, and the engine
is invoked exactly once with the validated arguments — no retry, remap or
masking, also for negative engine statuses. -/
theorem encode_status_passthrough (eng : Engine) (h : Int) (ins outs : List Int)
    (isz obc : Int) (hh : h ≠ 0) (hisz : 0 < isz) (hobc : 0 < obc) :
    (encode eng h (some ins) isz obc (some outs) true true).status =
      eng.encode_status h ins obc ∧
    (encode eng h (some ins) isz obc (some outs) true true).engineIn =
      some (ins, obc) := by
  constructor <;>
    simp [encode, hh, not_le.mpr hisz, not_le.mpr hobc]

/-- C5 witness: a concrete engine whose encode primitive answers the hard
failure -7 — the shim returns exactly -7. -/
theorem encode_status_passthrough_witness :
    (encode
        { specEngine with encode_status := fun _ _ _ => -7 }
        1 (some [5]) 1 20 (some [0]) true true).status =
      ({ specEngine with encode_status := fun _ _ _ => -7 } : Engine).encode_status
        1 [5] 20 := by
  exact (encode_status_passthrough
    { specEngine with encode_status := fun _ _ _ => -7 }
    1 [5] [0] 1 20 (by decide) (by decide) (by decide)).1

/-- C9: for every engine, `encode` with a non-positive `input_size` (a
parameter the spec's interface contract does not mention validating)
returns -1 without invoking the engine; and on every pre-engine validation
failure (engine never invoked) the caller-visible output array is left
unchanged. -/
theorem encode_input_size_validated (eng : Engine) (h : Int)
    (inb : Option (List Int)) (isz obc : Int) (outb : Option (List Int))
    (gi go : Bool) :
    (isz ≤ 0 →
      (encode eng h inb isz obc outb gi go).status = -1 ∧
      (encode eng h inb isz obc outb gi go).engineIn = none) ∧
    ((encode eng h inb isz obc outb gi go).engineIn = none →
      (encode eng h inb isz obc outb gi go).outData = outb) := by
  constructor
  · intro hisz
    rw [encode_early_exit eng h inb isz obc outb gi go (by tauto)]
    exact ⟨rfl, rfl⟩
  · intro hpre
    by_cases hgood : ¬ (h = 0 ∨ inb = none ∨ outb = none) ∧ gi = true ∧
        go = true ∧ 0 < isz ∧ 0 < obc
    · rw [encode_engine_invoked eng h inb isz obc outb gi go hgood] at hpre
      simp at hpre
    · have hbad : (h = 0 ∨ inb = none ∨ outb = none) ∨ (¬ gi ∨ ¬ go) ∨
          isz ≤ 0 ∨ obc ≤ 0 := by
        by_contra hc
        push_neg at hc
        exact hgood (by tauto)
      rw [encode_early_exit eng h inb isz obc outb gi go hbad]

/-- C9 witness: input_size 0 on a live handle with valid buffers yields
status -1, no engine call, and an unchanged output array. -/
theorem encode_input_size_validated_witness :
    (encode specEngine 1 (some [5]) 0 20 (some [9, 9]) true true).status = -1 ∧
    (encode specEngine 1 (some [5]) 0 20 (some [9, 9]) true true).engineIn = none ∧
    (encode specEngine 1 (some [5]) 0 20 (some [9, 9]) true true).outData =
      some [9, 9] := by
  have h := encode_input_size_validated specEngine 1 (some [5]) 0 20
    (some [9, 9]) true true
  exact ⟨(h.1 (by decide)).1, (h.1 (by decide)).2, h.2 (h.1 (by decide)).2⟩
